import Mathlib

/-!
Verification of the Inquiro ingestion and query pipelines.

The Python modules `src/inquiro/core/database.py` and
`src/inquiro/core/query.py` are shallowly embedded below: pure helpers
become Lean functions, the I/O done by the ingestion run and the query
run is made explicit through environment records (which play the role of
the external collaborators: document loaders, FAISS, psutil, Ollama) and
event traces.  Python `str` values that are only built and compared are
modelled by `String`; the query path, which slices and measures text,
models Python strings by `List Char` (Python slicing and `len` are per
character, as is `List` structure).  Python `float` similarity scores are
modelled by `ℚ`: the code only compares scores, never computes with
them, so ordered-field arithmetic is not involved.
-/

namespace Inquiro

/-- A document chunk as `database.py` sees it: `metadata["source"]` and
`metadata["page"]` are modelled by their f-string renderings (the code
only ever uses them inside `f"{source}:{page}"`), and `metadata["id"]`
by the `id` field (whatever value it held before assignment). -/
structure Chunk where
  text : String
  source : String
  page : String
  id : String
deriving DecidableEq

/-- The string `f"{source}:{page}"` computed at `database.py:368`. -/
def pageIdOf (c : Chunk) : String := c.source ++ ":" ++ c.page

/-- The loop of `calculate_chunk_ids` (`database.py:362-378`), with the
`last_page_id` and `current_chunk_index` variables threaded explicitly.
The Python initial state is `last_page_id = None`, `current_chunk_index = 0`. -/
def calcIdsFrom : Option String → Nat → List Chunk → List Chunk
  | _, _, [] => []
  | last, idx, c :: rest =>
    let pid := pageIdOf c
    let newIdx := if some pid = last then idx + 1 else 0
    { c with id := pid ++ ":" ++ toString newIdx } :: calcIdsFrom (some pid) newIdx rest

/-- `calculate_chunk_ids` (`database.py:355-380`). -/
def calculate_chunk_ids (chunks : List Chunk) : List Chunk :=
  calcIdsFrom none 0 chunks

/-- The chunk-index sequence the code produces, expressed on the rendered
page-id strings: 0 when the string differs from the preceding one,
predecessor plus one otherwise. -/
def chunkIndicesByString : Option String → Nat → List String → List Nat
  | _, _, [] => []
  | last, idx, p :: rest =>
    let newIdx := if some p = last then idx + 1 else 0
    newIdx :: chunkIndicesByString (some p) newIdx rest

/-- Modelled from the spec's words, for comparison only: the chunk-index
sequence mandated by the claim, which resets whenever the *pair*
`(source, page)` differs from the immediately preceding chunk's pair. -/
def chunkIndicesByPair : Option (String × String) → Nat → List (String × String) → List Nat
  | _, _, [] => []
  | last, idx, p :: rest =>
    let newIdx := if some p = last then idx + 1 else 0
    newIdx :: chunkIndicesByPair (some p) newIdx rest

/-- Modelled from the spec's words, for comparison only: the ids the claim
mandates, built from the pair-comparison chunk indices. -/
def specIds (chunks : List Chunk) : List String :=
  List.zipWith (fun c n => pageIdOf c ++ ":" ++ toString n) chunks
    (chunkIndicesByPair none 0 (chunks.map fun c => (c.source, c.page)))

/-- Erase the `id` field, to say that `calculate_chunk_ids` changes nothing
else and keeps order. -/
def stripId (c : Chunk) : Chunk := { c with id := "" }

/-- The `(last_page_id, current_chunk_index)` state after a list of chunks. -/
def calcState : Option String × Nat → List Chunk → Option String × Nat
  | st, [] => st
  | (last, idx), c :: rest =>
    let pid := pageIdOf c
    let newIdx := if some pid = last then idx + 1 else 0
    calcState (some pid, newIdx) rest

theorem calcIdsFrom_length (last : Option String) (idx : Nat) (cs : List Chunk) :
    (calcIdsFrom last idx cs).length = cs.length := by
  induction cs generalizing last idx with
  | nil => rfl
  | cons c rest ih => simp [calcIdsFrom, ih]

theorem calcIdsFrom_append (last : Option String) (idx : Nat) (xs ys : List Chunk) :
    calcIdsFrom last idx (xs ++ ys)
      = calcIdsFrom last idx xs
        ++ calcIdsFrom (calcState (last, idx) xs).1 (calcState (last, idx) xs).2 ys := by
  induction xs generalizing last idx with
  | nil => rfl
  | cons c rest ih => simp [calcIdsFrom, calcState, ih]

theorem calcIdsFrom_strip (last : Option String) (idx : Nat) (cs : List Chunk) :
    (calcIdsFrom last idx cs).map stripId = cs.map stripId := by
  induction cs generalizing last idx with
  | nil => rfl
  | cons c rest ih => simp [calcIdsFrom, stripId, ih]

theorem calcIdsFrom_ids (last : Option String) (idx : Nat) (cs : List Chunk) :
    (calcIdsFrom last idx cs).map Chunk.id
      = List.zipWith (fun p n => p ++ ":" ++ toString n) (cs.map pageIdOf)
          (chunkIndicesByString last idx (cs.map pageIdOf)) := by
  induction cs generalizing last idx with
  | nil => rfl
  | cons c rest ih => simp [calcIdsFrom, chunkIndicesByString, ih]

theorem calcIdsFrom_run_of_same (p : String) (j : Nat) (run : List Chunk)
    (hall : ∀ c ∈ run, pageIdOf c = p) :
    (calcIdsFrom (some p) j run).map Chunk.id
      = (List.range' (j + 1) run.length).map (fun n => p ++ ":" ++ toString n) := by
  induction run generalizing j with
  | nil => rfl
  | cons c rest ih =>
    have hc : pageIdOf c = p := hall c (List.mem_cons_self c rest)
    have hrest : ∀ c' ∈ rest, pageIdOf c' = p := fun c' hc' => hall c' (List.mem_cons_of_mem c hc')
    simp [calcIdsFrom, hc, List.range', ih (j + 1) hrest]

theorem calcIdsFrom_run_of_new (p : String) (last : Option String) (idx : Nat)
    (run : List Chunk) (hne : last ≠ some p) (hrun : run ≠ [])
    (hall : ∀ c ∈ run, pageIdOf c = p) :
    (calcIdsFrom last idx run).map Chunk.id
      = (List.range run.length).map (fun n => p ++ ":" ++ toString n) := by
  cases run with
  | nil => exact absurd rfl hrun
  | cons c rest =>
    have hc : pageIdOf c = p := hall c (List.mem_cons_self c rest)
    have hrest : ∀ c' ∈ rest, pageIdOf c' = p := fun c' hc' => hall c' (List.mem_cons_of_mem c hc')
    have hif : (if some p = last then idx + 1 else 0) = 0 := by
      simp only [ite_eq_right_iff]
      intro h
      exact absurd h.symm hne
    rw [List.range_eq_range']
    simp [calcIdsFrom, hif, hc, List.range',
      calcIdsFrom_run_of_same p 0 rest hrest]

theorem calcState_snoc (st : Option String × Nat) (xs : List Chunk) (x : Chunk) :
    (calcState st (xs ++ [x])).1 = some (pageIdOf x) := by
  induction xs generalizing st with
  | nil =>
    cases st with
    | mk last idx => simp [calcState]
  | cons c rest ih =>
    cases st with
    | mk last idx => simpa [calcState] using ih _

/-- C1 counterexample: the claim resets the chunk index whenever the *pair*
`(source, page)` changes, but `calculate_chunk_ids` compares the rendered
string `f"{source}:{page}"`.  The pairs `("a", "b:c")` and `("a:b", "c")`
differ yet render to the same page id, so the second chunk gets index 1
where the claim demands 0. -/
theorem C1_counterexample :
    ¬ ((calculate_chunk_ids [⟨"t1", "a", "b:c", ""⟩, ⟨"t2", "a:b", "c", ""⟩]).map Chunk.id
        = specIds [⟨"t1", "a", "b:c", ""⟩, ⟨"t2", "a:b", "c", ""⟩])
    ∧ (calculate_chunk_ids [⟨"t1", "a", "b:c", ""⟩, ⟨"t2", "a:b", "c", ""⟩]).map Chunk.id
        = ["a:b:c:0", "a:b:c:1"]
    ∧ specIds [⟨"t1", "a", "b:c", ""⟩, ⟨"t2", "a:b", "c", ""⟩] = ["a:b:c:0", "a:b:c:0"]
    ∧ (("a", "b:c") : String × String) ≠ ("a:b", "c") := by
  refine ⟨?_, by decide, by decide, by decide⟩
  decide

/-- C1 (amended): `calculate_chunk_ids` assigns `id = f"{source}:{page}:{chunkIndex}"`
where `chunkIndex` is 0 whenever the rendered page id `f"{source}:{page}"`
differs from the immediately preceding chunk's rendered page id and is the
predecessor's index plus one otherwise; it preserves input order and every
field but `id`; it maps the empty list to the empty list; and any run of
consecutive chunks sharing a rendered page id `p`, entered fresh (at the
start of the list or right after a chunk with a different rendered page id),
receives indices `0..n-1` in input order. -/
theorem C1_chunk_id_assignment (chunks : List Chunk) :
    (calculate_chunk_ids chunks).map stripId = chunks.map stripId
    ∧ (calculate_chunk_ids chunks).map Chunk.id
        = List.zipWith (fun p n => p ++ ":" ++ toString n) (chunks.map pageIdOf)
            (chunkIndicesByString none 0 (chunks.map pageIdOf))
    ∧ calculate_chunk_ids ([] : List Chunk) = []
    ∧ ∀ pre run post p, chunks = pre ++ run ++ post →
        (∀ c ∈ run, pageIdOf c = p) →
        (pre = [] ∨ ∃ pre' lp, pre = pre' ++ [lp] ∧ pageIdOf lp ≠ p) →
        (((calculate_chunk_ids chunks).map Chunk.id).drop pre.length).take run.length
          = (List.range run.length).map (fun n => p ++ ":" ++ toString n) := by
  refine ⟨calcIdsFrom_strip none 0 chunks, calcIdsFrom_ids none 0 chunks, rfl, ?_⟩
  intro pre run post p hsplit hall hpre
  by_cases hrun : run = []
  · simp [hrun]
  · subst hsplit
    have hlast : (calcState (none, 0) pre).1 ≠ some p := by
      rcases hpre with hnil | ⟨pre', lp, hpre', hlp⟩
      · subst hnil; simp [calcState]
      · subst hpre'
        rw [calcState_snoc]
        simpa using hlp
    have hmid :=
      calcIdsFrom_run_of_new p (calcState (none, 0) pre).1 (calcState (none, 0) pre).2
        run hlast hrun hall
    have hsteps :
        calcIdsFrom none 0 (pre ++ run ++ post)
          = calcIdsFrom none 0 pre
            ++ (calcIdsFrom (calcState (none, 0) pre).1 (calcState (none, 0) pre).2 run
                ++ calcIdsFrom (calcState (calcState (none, 0) pre) run).1
                     (calcState (calcState (none, 0) pre) run).2 post) := by
      rw [List.append_assoc, calcIdsFrom_append, calcIdsFrom_append]
    simp only [calculate_chunk_ids]
    rw [hsteps, List.map_append, List.map_append,
      List.drop_left' (by simp [calcIdsFrom_length]),
      List.take_left' (by simp [calcIdsFrom_length])]
    exact hmid

/-- C1 witness: the amended theorem applied to the concrete list with
rendered page ids `q:1, p:1, p:1` — the run of two `p:1` chunks entered
after a `q:1` chunk receives indices 0 and 1. -/
theorem C1_chunk_id_assignment_witness :
    ((((calculate_chunk_ids
        [⟨"tx", "q", "1", ""⟩, ⟨"ty", "p", "1", ""⟩, ⟨"tz", "p", "1", ""⟩]).map
          Chunk.id).drop 1).take 2)
      = ["p:1:0", "p:1:1"] := by
  have h :=
    (C1_chunk_id_assignment
        [⟨"tx", "q", "1", ""⟩, ⟨"ty", "p", "1", ""⟩, ⟨"tz", "p", "1", ""⟩]).2.2.2
      [⟨"tx", "q", "1", ""⟩] [⟨"ty", "p", "1", ""⟩, ⟨"tz", "p", "1", ""⟩] [] "p:1"
      rfl (by decide) (Or.inr ⟨[], ⟨"tx", "q", "1", ""⟩, rfl, by decide⟩)
  simpa using h

/-! ### The query pipeline (`query.py`)

Python strings on this path are sliced and measured per character, so they
are modelled by `List Char`; `s.data` turns a Lean string literal into that
representation. -/

abbrev PyStr := List Char

/-- The whitespace set of Python's `str.strip()` (ASCII part; the code only
ever strips user-typed queries and menu choices). -/
def isPySpace (c : Char) : Bool :=
  c == ' ' || c == '\t' || c == '\n' || c == '\r' || c == '\x0b' || c == '\x0c'

/-- Python `s.strip()`. -/
def pyStrip (s : PyStr) : PyStr :=
  ((s.dropWhile isPySpace).reverse.dropWhile isPySpace).reverse

/-- One `(Document, score)` pair as returned by
`db.similarity_search_with_score` (`query.py:94`): the page content, the
`metadata["id"]`, and the similarity score.  Scores are only ever compared,
so Python floats are modelled by `ℚ`. -/
structure Candidate where
  text : PyStr
  id : String
  score : ℚ
deriving DecidableEq

/-- The threshold filter at `query.py:97`: keep `(doc, score)` with
`score >= threshold`, preserving the order of `results`. -/
def filterByThreshold (threshold : ℚ) (results : List Candidate) : List Candidate :=
  results.filter (fun c => decide (threshold ≤ c.score))

/-- The fixed separator joining candidate texts (`query.py:115`). -/
def contextSep : PyStr := "\n\n---\n\n".data

/-- `"\n\n---\n\n".join([doc.page_content for doc, _score in filtered_results])`
(`query.py:115`). -/
def buildContext (cands : List Candidate) : PyStr :=
  List.intercalate contextSep (cands.map Candidate.text)

/-- The truncation marker appended at `query.py:120`. -/
def truncMarker : PyStr := "...[truncated]".data

/-- The length check and truncation at `query.py:117-120`:
`context_text[:maxLen] + "...[truncated]"` when `len(context_text) > maxLen`,
unchanged otherwise.  `maxLen` stands for `DEFAULT_MAX_CONTEXT_LENGTH`,
which `config.py` reads from the environment (default 6000). -/
def capContext (maxLen : Nat) (ctx : PyStr) : PyStr :=
  if maxLen < ctx.length then ctx.take maxLen ++ truncMarker else ctx

/-- The default `PROMPT_TEMPLATE` of `config.py` up to the context slot. -/
def promptPre : PyStr := "\nAnswer the question based only on the following context:\n\n".data

/-- The default `PROMPT_TEMPLATE` between the context and question slots. -/
def promptMid : PyStr := "\n\n---\n\nAnswer the question based on the above context: ".data

/-- `prompt_template.format(context=..., question=...)` (`query.py:124-125`)
on the default template: context and question substituted verbatim. -/
def promptOf (context question : PyStr) : PyStr :=
  promptPre ++ context ++ promptMid ++ question ++ "\n".data

/-- The distinct reported failure conditions of `query_rag`, in source
order: empty query (`query.py:75-77`), index load failure (87-90), search
failure (110-112), empty filtered set (99-102), generation failure
(133-136). -/
inductive QueryFailure
  | emptyQuery
  | indexLoadError
  | searchError
  | noRelevantDocs
  | generationError
deriving DecidableEq

/-- The external collaborators `query_rag` calls: `FAISS.load_local`
(`none` models the exception path), `similarity_search_with_score`, and
`Ollama.invoke` on the formatted prompt (`none` models an exception). -/
structure QueryEnv where
  loadIndex : Option Unit
  search : PyStr → Nat → Option (List Candidate)
  generate : PyStr → Option PyStr

/-- How many times the index was loaded and the generative model invoked
during one `query_rag` call. -/
structure QueryTrace where
  indexLoadCalls : Nat
  modelCalls : Nat
deriving DecidableEq

/-- The `response_data` dict built at `query.py:142-148` (the wall-clock
`response_time` field is not modelled). -/
structure QueryResponse where
  answer : PyStr
  sources : List String
  numSources : Nat
  query : PyStr
deriving DecidableEq

/-- `query_rag` (`query.py:52-163`): validation, index load, search,
threshold filter, context assembly and capping, prompt formatting,
generation, and packaging, with every failure reported as a distinct
`QueryFailure` and no partial `QueryResponse`. -/
def query_rag (env : QueryEnv) (queryText : PyStr) (k : Nat) (threshold : ℚ)
    (maxContextLength : Nat) : Except QueryFailure QueryResponse × QueryTrace :=
  if (pyStrip queryText).isEmpty then (.error .emptyQuery, ⟨0, 0⟩)
  else
    match env.loadIndex with
    | none => (.error .indexLoadError, ⟨1, 0⟩)
    | some _ =>
      match env.search queryText k with
      | none => (.error .searchError, ⟨1, 0⟩)
      | some results =>
        let filtered := filterByThreshold threshold results
        if filtered.isEmpty then (.error .noRelevantDocs, ⟨1, 0⟩)
        else
          let contextText := capContext maxContextLength (buildContext filtered)
          match env.generate (promptOf contextText queryText) with
          | none => (.error .generationError, ⟨1, 1⟩)
          | some answer =>
            (.ok ⟨answer, filtered.map Candidate.id, (filtered.map Candidate.id).length,
              queryText⟩, ⟨1, 1⟩)

theorem query_rag_ok (env : QueryEnv) (q : PyStr) (k : Nat) (θ : ℚ) (m : Nat)
    (r : QueryResponse) (h : (query_rag env q k θ m).1 = .ok r) :
    (pyStrip q).isEmpty = false
    ∧ ∃ results, env.search q k = some results
        ∧ (filterByThreshold θ results).isEmpty = false
        ∧ env.generate (promptOf (capContext m (buildContext (filterByThreshold θ results))) q)
            = some r.answer
        ∧ r.sources = (filterByThreshold θ results).map Candidate.id
        ∧ r.numSources = r.sources.length
        ∧ r.query = q := by
  unfold query_rag at h
  split at h
  · exact absurd h (by simp)
  · next hq =>
    rcases hload : env.loadIndex with _ | u
    · rw [hload] at h; exact absurd h (by simp)
    · rw [hload] at h
      rcases hsearch : env.search q k with _ | results
      · rw [hsearch] at h; exact absurd h (by simp)
      · rw [hsearch] at h
        simp only at h
        split at h
        · exact absurd h (by simp)
        · next hfilt =>
          rcases hgen : env.generate
              (promptOf (capContext m (buildContext (filterByThreshold θ results))) q)
            with _ | answer
          · rw [hgen] at h; exact absurd h (by simp)
          · rw [hgen] at h
            simp only [Prod.fst, Except.ok.injEq] at h
            refine ⟨by simpa using hq, results, rfl, by simpa using hfilt, ?_, ?_, ?_, ?_⟩
            · rw [hgen, ← h]
            · rw [← h]
            · rw [← h]
            · rw [← h]

/-- C2 counterexample: the claim says the final context string never
exceeds `maxContextLength` characters and is a strict prefix of the
concatenation, but the code appends the 14-character marker *after* taking
the `maxContextLength`-character prefix: at `maxContextLength = 3` and
concatenation `"abcde"` the final string is `"abc...[truncated]"`, 17
characters long and not a prefix of `"abcde"`. -/
theorem C2_counterexample :
    ¬ ((capContext 3 "abcde".data).length ≤ 3)
    ∧ capContext 3 "abcde".data = "abc...[truncated]".data
    ∧ (capContext 3 "abcde".data).length = 17
    ∧ ¬ (capContext 3 "abcde".data) <+: "abcde".data := by
  refine ⟨by decide, by decide, by decide, ?_⟩
  intro hpre
  exact absurd (List.IsPrefix.length_le hpre) (by decide)

/-- C2 (amended): when the concatenated context exceeds `maxContextLength`
characters, the part kept before the marker is exactly the
`maxContextLength`-character prefix of the concatenation — a strict prefix
of it — and the final context is that prefix with the truncation marker
appended, so its total length is `maxContextLength` plus the marker's 14
characters (it exceeds `maxContextLength` by exactly the marker); when the
concatenation does not exceed `maxContextLength` it is passed through
unchanged. -/
theorem C2_context_cap (maxLen : Nat) (ctx : PyStr) :
    (maxLen < ctx.length →
      capContext maxLen ctx = ctx.take maxLen ++ truncMarker
      ∧ (ctx.take maxLen).length = maxLen
      ∧ ctx.take maxLen <+: ctx
      ∧ ctx.take maxLen ≠ ctx
      ∧ (capContext maxLen ctx).length = maxLen + truncMarker.length
      ∧ truncMarker.length = 14)
    ∧ (ctx.length ≤ maxLen → capContext maxLen ctx = ctx) := by
  constructor
  · intro h
    have hlen : (ctx.take maxLen).length = maxLen := by
      rw [List.length_take]
      exact Nat.min_eq_left (Nat.le_of_lt h)
    refine ⟨by simp [capContext, h], hlen,
      ⟨ctx.drop maxLen, List.take_append_drop maxLen ctx⟩, ?_, ?_, by decide⟩
    · intro heq
      rw [heq] at hlen
      omega
    · simp [capContext, h, hlen]
  · intro h
    simp [capContext, Nat.not_lt.mpr h]

/-- C2 witness: the amended theorem applied at `maxContextLength = 2` to
the over-long context `"abcd"` and at `maxContextLength = 7` to the same
context, which then passes through unchanged. -/
theorem C2_context_cap_witness :
    capContext 2 "abcd".data = "ab...[truncated]".data
    ∧ capContext 7 "abcd".data = "abcd".data := by
  constructor
  · rw [(C2_context_cap 2 "abcd".data).1 (by decide) |>.1]
    decide
  · exact (C2_context_cap 7 "abcd".data).2 (by decide)

/-- The spec's own scenario for C3: a result set with scores
`[0.9, 0.6, 0.3, 0.8, 0.1]` in search-return order. -/
def scenarioResults : List Candidate :=
  [⟨"A".data, "idA", 9/10⟩, ⟨"B".data, "idB", 6/10⟩, ⟨"C".data, "idC", 3/10⟩,
   ⟨"D".data, "idD", 8/10⟩, ⟨"E".data, "idE", 1/10⟩]

/-- C3 counterexample: `query_rag` never re-sorts — it filters the search
results in the order they were returned.  On the spec's own scenario
(scores `[0.9, 0.6, 0.3, 0.8, 0.1]`, threshold `0.4`) the filtered list
keeps scores `0.9, 0.6, 0.8`, which is not descending, and the built
context differs from the context built from the same candidates arranged
in descending-score order. -/
theorem C3_counterexample :
    filterByThreshold (2/5) scenarioResults
      = [⟨"A".data, "idA", 9/10⟩, ⟨"B".data, "idB", 6/10⟩, ⟨"D".data, "idD", 8/10⟩]
    ∧ ¬ List.Sorted (fun a b : Candidate => b.score ≤ a.score)
        (filterByThreshold (2/5) scenarioResults)
    ∧ ¬ (buildContext (filterByThreshold (2/5) scenarioResults)
          = buildContext
              [⟨"A".data, "idA", 9/10⟩, ⟨"D".data, "idD", 8/10⟩, ⟨"B".data, "idB", 6/10⟩]) := by
  have hfilt : filterByThreshold (2/5) scenarioResults
      = [⟨"A".data, "idA", 9/10⟩, ⟨"B".data, "idB", 6/10⟩, ⟨"D".data, "idD", 8/10⟩] := by
    simp only [scenarioResults, filterByThreshold, List.filter]
    norm_num
  refine ⟨hfilt, ?_, ?_⟩
  · rw [hfilt]
    intro hs
    have h68 := List.rel_of_sorted_cons (List.sorted_cons.mp hs).2
      ⟨"D".data, "idD", 8/10⟩ (by simp)
    norm_num at h68
  · rw [hfilt]
    decide

/-- C3 (amended): the context is the texts of the threshold-filtered
candidates joined by the fixed separator *in the order the
nearest-neighbor search returned them*: the filter is an order-preserving
subselection, so the context is in descending-score order exactly when the
search results themselves are (which the code does not enforce); and on a
successful `query_rag` run the generative model receives the prompt built
from precisely that filtered-in-return-order, capped context. -/
theorem C3_context_order (env : QueryEnv) (queryText : PyStr) (k : Nat)
    (threshold : ℚ) (maxLen : Nat) (results : List Candidate) :
    List.Sublist (filterByThreshold threshold results) results
    ∧ (List.Sorted (fun a b : Candidate => b.score ≤ a.score) results →
        List.Sorted (fun a b : Candidate => b.score ≤ a.score)
          (filterByThreshold threshold results))
    ∧ (env.search queryText k = some results →
        ∀ r, (query_rag env queryText k threshold maxLen).1 = .ok r →
          env.generate (promptOf
              (capContext maxLen (buildContext (filterByThreshold threshold results)))
              queryText)
            = some r.answer) := by
  refine ⟨List.filter_sublist results, fun h => h.filter _, ?_⟩
  intro hsearch r hok
  obtain ⟨-, results', hsearch', -, hgen, -, -, -⟩ := query_rag_ok env queryText k threshold maxLen r hok
  rw [hsearch] at hsearch'
  cases hsearch'
  exact hgen

/-- C3 witness: the amended theorem applied to a search that returns a
descending-score result set (scores 9, 8, 6, threshold 4); the filtered
set stays descending, and the echoing model receives the prompt built
from it. -/
theorem C3_context_order_witness :
    List.Sorted (fun a b : Candidate => b.score ≤ a.score)
      (filterByThreshold 4
        [⟨"A".data, "a", 9⟩, ⟨"D".data, "d", 8⟩, ⟨"B".data, "b", 6⟩])
    ∧ some (promptOf
        (capContext 50 (buildContext (filterByThreshold 4
          [⟨"A".data, "a", 9⟩, ⟨"D".data, "d", 8⟩, ⟨"B".data, "b", 6⟩])))
        "hi".data)
      = some (promptOf
        (capContext 50 (buildContext (filterByThreshold 4
          [⟨"A".data, "a", 9⟩, ⟨"D".data, "d", 8⟩, ⟨"B".data, "b", 6⟩])))
        "hi".data) := by
  have h := C3_context_order
    ⟨some (), fun _ _ => some
        [⟨"A".data, "a", 9⟩, ⟨"D".data, "d", 8⟩, ⟨"B".data, "b", 6⟩],
      fun p => some p⟩
    "hi".data 5 4 50
    [⟨"A".data, "a", 9⟩, ⟨"D".data, "d", 8⟩, ⟨"B".data, "b", 6⟩]
  refine ⟨h.2.1 (by decide), ?_⟩
  exact h.2.2 rfl
    ⟨promptOf
        (capContext 50 (buildContext (filterByThreshold 4
          [⟨"A".data, "a", 9⟩, ⟨"D".data, "d", 8⟩, ⟨"B".data, "b", 6⟩])))
        "hi".data,
      (filterByThreshold 4
        [⟨"A".data, "a", 9⟩, ⟨"D".data, "d", 8⟩, ⟨"B".data, "b", 6⟩]).map Candidate.id,
      ((filterByThreshold 4
        [⟨"A".data, "a", 9⟩, ⟨"D".data, "d", 8⟩, ⟨"B".data, "b", 6⟩]).map Candidate.id).length,
      "hi".data⟩
    rfl

/-- C4 (confirmed): the filter keeps a retrieved candidate exactly when its
score is at least the threshold (so the boundary `score = threshold` is
kept), and when the filtered set is empty `query_rag` reports
`noRelevantDocs` — a failure distinct from `indexLoadError` — returns no
answer, and invokes the generative model zero times. -/
theorem C4_threshold_filter (env : QueryEnv) (q : PyStr) (k : Nat)
    (θ : ℚ) (m : Nat) (results : List Candidate) :
    (∀ c, c ∈ filterByThreshold θ results ↔ (c ∈ results ∧ θ ≤ c.score))
    ∧ (∀ c, c ∈ results → c.score = θ → c ∈ filterByThreshold θ results)
    ∧ ((pyStrip q).isEmpty = false → env.loadIndex = some () →
        env.search q k = some results → filterByThreshold θ results = [] →
        query_rag env q k θ m = (.error .noRelevantDocs, ⟨1, 0⟩))
    ∧ QueryFailure.noRelevantDocs ≠ QueryFailure.indexLoadError := by
  have hmem : ∀ c, c ∈ filterByThreshold θ results ↔ (c ∈ results ∧ θ ≤ c.score) := by
    intro c
    simp [filterByThreshold, List.mem_filter]
  refine ⟨hmem, ?_, ?_, by decide⟩
  · intro c hc hscore
    exact (hmem c).mpr ⟨hc, le_of_eq hscore.symm⟩
  · intro hq hload hsearch hfilt
    simp [query_rag, hq, hload, hsearch, hfilt]

/-- C4 witness: a search returning one candidate of score 1 against
threshold 3 yields the `noRelevantDocs` outcome with zero model calls, and
a candidate sitting exactly on the threshold is kept. -/
theorem C4_threshold_filter_witness :
    query_rag ⟨some (), fun _ _ => some [⟨"A".data, "x", 1⟩], fun p => some p⟩
        "hi".data 5 3 50
      = (.error .noRelevantDocs, ⟨1, 0⟩)
    ∧ (⟨"B".data, "y", 3⟩ : Candidate) ∈ filterByThreshold 3 [⟨"B".data, "y", 3⟩] := by
  have h := C4_threshold_filter
    ⟨some (), fun _ _ => some [⟨"A".data, "x", 1⟩], fun p => some p⟩
    "hi".data 5 3 50 [⟨"A".data, "x", 1⟩]
  have h2 := C4_threshold_filter
    ⟨some (), fun _ _ => some [⟨"B".data, "y", 3⟩], fun p => some p⟩
    "hi".data 5 3 50 [⟨"B".data, "y", 3⟩]
  refine ⟨h.2.2.1 (by decide) rfl rfl (by decide), ?_⟩
  exact h2.2.1 ⟨"B".data, "y", 3⟩ (by decide) rfl

/-- C7 (confirmed): an empty or whitespace-only query is rejected with the
`emptyQuery` validation failure before any index access (the trace shows
zero index loads); a failing index load is reported as `indexLoadError`
with zero model calls and no result; and any `ok` result is complete —
its sources are exactly the ids of the filtered candidates, its count is
their number, its query is the original text, and its answer is the
model's response to the prompt built from the capped context. -/
theorem C7_query_failure_paths (env : QueryEnv) (q : PyStr) (k : Nat)
    (θ : ℚ) (m : Nat) :
    ((pyStrip q).isEmpty = true → query_rag env q k θ m = (.error .emptyQuery, ⟨0, 0⟩))
    ∧ ((pyStrip q).isEmpty = false → env.loadIndex = none →
        query_rag env q k θ m = (.error .indexLoadError, ⟨1, 0⟩))
    ∧ (∀ r, (query_rag env q k θ m).1 = .ok r →
        ∃ results, env.search q k = some results
          ∧ r.sources = (filterByThreshold θ results).map Candidate.id
          ∧ r.numSources = r.sources.length
          ∧ r.query = q
          ∧ env.generate (promptOf (capContext m (buildContext (filterByThreshold θ results))) q)
              = some r.answer) := by
  refine ⟨?_, ?_, ?_⟩
  · intro hq
    simp [query_rag, hq]
  · intro hq hload
    simp [query_rag, hq, hload]
  · intro r hok
    obtain ⟨-, results, hs, -, hgen, hsrc, hnum, hq⟩ := query_rag_ok env q k θ m r hok
    exact ⟨results, hs, hsrc, hnum, hq, hgen⟩

/-- C7 witness: a whitespace-only query is rejected with zero index loads,
and a query against an unloadable index reports `indexLoadError` with zero
model calls. -/
theorem C7_query_failure_paths_witness :
    query_rag ⟨some (), fun _ _ => some [], fun p => some p⟩ "  ".data 5 3 50
      = (.error .emptyQuery, ⟨0, 0⟩)
    ∧ query_rag ⟨none, fun _ _ => some [], fun p => some p⟩ "hi".data 5 3 50
      = (.error .indexLoadError, ⟨1, 0⟩) := by
  have h1 := C7_query_failure_paths
    ⟨some (), fun _ _ => some [], fun p => some p⟩ "  ".data 5 3 50
  have h2 := C7_query_failure_paths
    ⟨none, fun _ _ => some [], fun p => some p⟩ "hi".data 5 3 50
  exact ⟨h1.1 (by decide), h2.2.1 (by decide) rfl⟩

/-! ### The ingestion pipeline (`database.py`) -/

/-- The in-memory FAISS handle is modelled by the list of stored documents:
`FAISS.from_documents` makes one entry per chunk, `merge_from` appends the
other index's entries (index-level union, no per-entry delete or update). -/
abbrev Db := List Chunk

/-- `process_batch` (`database.py:552-588`): an empty batch returns the
existing handle unchanged; otherwise a new index is built from the batch
and merged into the existing one when there is one, or becomes the
database itself. -/
def process_batch (chunks : List Chunk) (existing : Option Db) : Option Db :=
  if chunks.isEmpty then existing
  else
    match existing with
    | some d => some (d ++ chunks)
    | none => some chunks

/-- The on-disk state at `FAISS_PATH`: no directory, a directory whose
`load_local` raises, or a readable index with contents `d`. -/
inductive DiskIndex
  | absent
  | corrupt
  | present (d : Db)
deriving DecidableEq

/-- The `db` handle after the load-or-downgrade prologue
(`database.py:441-450`): a load failure is logged and leaves `db = None`,
exactly like an absent index. -/
def loadDisk : DiskIndex → Option Db
  | .absent => none
  | .corrupt => none
  | .present d => some d

/-- One source file as the batched pipeline sees it: the chunk list its
loader and splitter produce (`none` models a raised exception — an
unreadable or unparsable file), and whether the process's resident memory
exceeds the memory limit at the `check_memory()` call made after this
file's chunks were appended. -/
structure SrcDoc where
  load : Option (List Chunk)
  memExceeds : Bool
deriving DecidableEq

/-- The observable ingestion events: a flush of `n` pending chunks
(embed + insert-or-merge, `process_batch`) and a save to disk recording
the `total_chunks_processed` counter. -/
inductive IngestEv
  | flush (n : Nat)
  | save (total : Nat)
deriving DecidableEq

def isSave : IngestEv → Bool
  | .save _ => true
  | .flush _ => false

/-- The mutable state of `process_documents_in_batches`: the `db` handle,
`current_batch_chunks`, `total_chunks_processed`, and the events emitted
so far. -/
structure IngestState where
  db : Option Db
  pending : List Chunk
  total : Nat
  events : List IngestEv
deriving DecidableEq

/-- Flushing the pending list (`database.py:472-476`, repeated at 498-502,
527-531 and 540-542): `process_batch`, bump the counter, clear the list. -/
def flushPending (st : IngestState) : IngestState :=
  { db := process_batch st.pending st.db
    pending := []
    total := st.total + st.pending.length
    events := st.events ++ [.flush st.pending.length] }

/-- The body of the PDF loop (`database.py:457-479`): a loader exception
skips the file; otherwise the split chunks get ids and join the pending
list, and a flush happens when the pending list has reached `batchSize`
items or (`psutil` importable and `memLimit > 0`) resident memory exceeds
the limit. -/
def stepPdf (batchSize memLimit : Nat) (hasPsutil : Bool) (st : IngestState)
    (d : SrcDoc) : IngestState :=
  match d.load with
  | none => st
  | some chunks =>
    let st' := { st with pending := st.pending ++ calculate_chunk_ids chunks }
    if batchSize ≤ st'.pending.length ∨ (hasPsutil = true ∧ 0 < memLimit ∧ d.memExceeds = true) then
      flushPending st'
    else st'

/-- The body of the DOCX and DOC loops (`database.py:483-505` and
511-534): identical to the PDF loop except that no memory check is made —
the flush condition is the batch size alone. -/
def stepOffice (batchSize : Nat) (st : IngestState) (d : SrcDoc) : IngestState :=
  match d.load with
  | none => st
  | some chunks =>
    let st' := { st with pending := st.pending ++ calculate_chunk_ids chunks }
    if batchSize ≤ st'.pending.length then flushPending st' else st'

/-- The inputs of one batched ingestion run: the three globbed file lists
in processing order, the on-disk index, and the availability of `psutil`
and of the two Unstructured loaders. -/
structure IngestEnv where
  pdfs : List SrcDoc
  docxs : List SrcDoc
  docs : List SrcDoc
  disk : DiskIndex
  hasPsutil : Bool
  wordLoaderAvailable : Bool
  fileLoaderAvailable : Bool
deriving DecidableEq

/-- The three per-type loops of `process_documents_in_batches`
(`database.py:456-537`), in source order: PDFs, then DOCX files when
`UnstructuredWordDocumentLoader` is available, then DOC files when
`UnstructuredFileLoader` is available. -/
def runLoops (env : IngestEnv) (batchSize memLimit : Nat) (st0 : IngestState) :
    IngestState :=
  let st1 := env.pdfs.foldl (stepPdf batchSize memLimit env.hasPsutil) st0
  let st2 := if env.wordLoaderAvailable then env.docxs.foldl (stepOffice batchSize) st1 else st1
  if env.fileLoaderAvailable then env.docs.foldl (stepOffice batchSize) st2 else st2

/-- The final `if db: db.save_local(...)` (`database.py:544-549`): save
once when the handle is non-None, report "Database not updated"
otherwise. -/
def finishSave (st4 : IngestState) : IngestState :=
  if st4.db.isSome then { st4 with events := st4.events ++ [.save st4.total] } else st4

/-- The epilogue of `process_documents_in_batches` (`database.py:539-549`):
flush any remaining pending chunks, then the final save step. -/
def finishRun (st3 : IngestState) : IngestState :=
  finishSave (if st3.pending.isEmpty then st3 else flushPending st3)

/-- `process_documents_in_batches` (`database.py:393-549`): early return
when no PDF, DOCX or DOC files are found (before the index is even
loaded); otherwise load-or-downgrade the on-disk index, run the three
loops, and finish. -/
def process_documents_in_batches (env : IngestEnv) (batchSize memLimit : Nat) :
    IngestState :=
  if env.pdfs.isEmpty ∧ env.docxs.isEmpty ∧ env.docs.isEmpty then
    ⟨none, [], 0, []⟩
  else
    finishRun (runLoops env batchSize memLimit ⟨loadDisk env.disk, [], 0, []⟩)

/-- `add_to_faiss` called without a batch size (`database.py:277-352`,
the traditional path): an empty chunk list returns before any disk access;
otherwise ids are assigned, a new index is built from the chunks (merged
into the existing index when it loads, a load failure downgrades to
building fresh) and the result is saved. -/
def add_to_faiss (chunks : List Chunk) (disk : DiskIndex) : DiskIndex × List IngestEv :=
  if chunks.isEmpty then (disk, [])
  else
    let cwid := calculate_chunk_ids chunks
    match disk with
    | .present d => (.present (d ++ cwid), [.save cwid.length])
    | .corrupt => (.present cwid, [.save cwid.length])
    | .absent => (.present cwid, [.save cwid.length])

/-- Occurrences of a chunk id in an index. -/
def countId (d : Db) (i : String) : Nat := d.countP (fun c => decide (c.id = i))

theorem stepPdf_saves (bs ml : Nat) (hp : Bool) (st : IngestState) (d : SrcDoc) :
    ((stepPdf bs ml hp st d).events).countP isSave = st.events.countP isSave := by
  unfold stepPdf
  cases d.load with
  | none => rfl
  | some chunks =>
    dsimp only
    split
    · simp [flushPending, List.countP_append, List.countP_cons, isSave]
    · rfl

theorem stepOffice_saves (bs : Nat) (st : IngestState) (d : SrcDoc) :
    ((stepOffice bs st d).events).countP isSave = st.events.countP isSave := by
  unfold stepOffice
  cases d.load with
  | none => rfl
  | some chunks =>
    dsimp only
    split
    · simp [flushPending, List.countP_append, List.countP_cons, isSave]
    · rfl

theorem foldl_saves {f : IngestState → SrcDoc → IngestState}
    (hf : ∀ st d, ((f st d).events).countP isSave = st.events.countP isSave)
    (docs : List SrcDoc) (st : IngestState) :
    ((docs.foldl f st).events).countP isSave = st.events.countP isSave := by
  induction docs generalizing st with
  | nil => rfl
  | cons d rest ih => rw [List.foldl_cons, ih, hf]

theorem runLoops_saves (env : IngestEnv) (bs ml : Nat) (st : IngestState) :
    ((runLoops env bs ml st).events).countP isSave = st.events.countP isSave := by
  unfold runLoops
  by_cases hw : env.wordLoaderAvailable = true <;>
    by_cases hf : env.fileLoaderAvailable = true <;>
    simp only [hw, hf, if_true, if_false, Bool.false_eq_true, ite_false, ite_true,
      foldl_saves (stepOffice_saves bs), foldl_saves (stepPdf_saves bs ml env.hasPsutil)]

theorem finishSave_props (st4 : IngestState) (hpend : st4.pending = [])
    (hev : st4.events.countP isSave = 0) :
    (finishSave st4).pending = []
    ∧ ((finishSave st4).events).countP isSave
        = (if (finishSave st4).db.isSome then 1 else 0)
    ∧ ((finishSave st4).db.isSome = true →
        ∃ pre, (finishSave st4).events = pre ++ [IngestEv.save (finishSave st4).total]
          ∧ pre.countP isSave = 0) := by
  unfold finishSave
  by_cases hdb : st4.db.isSome = true
  · rw [if_pos hdb]
    refine ⟨hpend, ?_, fun _ => ⟨st4.events, rfl, hev⟩⟩
    simp [List.countP_append, List.countP_cons, isSave, hev, hdb]
  · rw [if_neg hdb]
    refine ⟨hpend, ?_, fun hsome => absurd hsome hdb⟩
    simp only [Bool.not_eq_true] at hdb
    simp [hdb, hev]

theorem finishRun_props (st : IngestState) (h : st.events.countP isSave = 0) :
    (finishRun st).pending = []
    ∧ ((finishRun st).events).countP isSave
        = (if (finishRun st).db.isSome then 1 else 0)
    ∧ ((finishRun st).db.isSome = true →
        ∃ pre, (finishRun st).events = pre ++ [IngestEv.save (finishRun st).total]
          ∧ pre.countP isSave = 0) := by
  unfold finishRun
  by_cases hp : st.pending.isEmpty = true
  · rw [if_pos hp]
    exact finishSave_props st (by simpa using hp) h
  · rw [if_neg hp]
    exact finishSave_props (flushPending st) rfl
      (by simp [flushPending, List.countP_append, List.countP_cons, isSave, h])

theorem run_discipline (env : IngestEnv) (bs ml : Nat) :
    (process_documents_in_batches env bs ml).pending = []
    ∧ ((process_documents_in_batches env bs ml).events).countP isSave
        = (if (process_documents_in_batches env bs ml).db.isSome then 1 else 0)
    ∧ ((process_documents_in_batches env bs ml).db.isSome = true →
        ∃ pre, (process_documents_in_batches env bs ml).events
            = pre ++ [IngestEv.save (process_documents_in_batches env bs ml).total]
          ∧ pre.countP isSave = 0) := by
  unfold process_documents_in_batches
  split
  · exact ⟨rfl, rfl, by intro hsome; simp at hsome⟩
  · exact finishRun_props _ (by rw [runLoops_saves]; rfl)

/-- C5 counterexample: the claim says a memory-limit-exceeded condition
triggers a flush after a document of *every* supported type, but the
`check_memory()` call appears only in the PDF loop.  Two one-chunk DOCX
files, the first with memory exceeded (`memoryLimit = 100 > 0`, `psutil`
present, `batchSize = 10` not reached), produce a single final flush of 2
chunks — while the same two files as PDFs produce the claimed
flush-after-the-first trace. -/
theorem C5_counterexample :
    (process_documents_in_batches
        ⟨[], [⟨some [⟨"t1", "a", "0", ""⟩], true⟩, ⟨some [⟨"t2", "b", "0", ""⟩], false⟩],
          [], .absent, true, true, true⟩ 10 100).events
      = [.flush 2, .save 2]
    ∧ ¬ ((process_documents_in_batches
        ⟨[], [⟨some [⟨"t1", "a", "0", ""⟩], true⟩, ⟨some [⟨"t2", "b", "0", ""⟩], false⟩],
          [], .absent, true, true, true⟩ 10 100).events
      = [.flush 1, .flush 1, .save 2])
    ∧ (process_documents_in_batches
        ⟨[⟨some [⟨"t1", "a", "0", ""⟩], true⟩, ⟨some [⟨"t2", "b", "0", ""⟩], false⟩], [],
          [], .absent, true, true, true⟩ 10 100).events
      = [.flush 1, .flush 1, .save 2] := by
  refine ⟨by decide, by decide, by decide⟩

/-- C5 (amended): after a *PDF* document's chunks are appended, a flush
occurs exactly when the pending list has reached `batchSize` or (`psutil`
present and `memoryLimit > 0`) resident memory exceeds the limit; after a
DOCX or DOC document the flush condition is the batch size alone (no
memory check); `memoryLimit = 0` makes the PDF step identical to the
memory-check-free step; a final flush leaves no pending remainder; and
the save event happens exactly once, as the last event, precisely when
the database handle is non-None at the end of the run. -/
theorem C5_batched_flush_policy (env : IngestEnv) (bs ml : Nat) (hp : Bool)
    (st : IngestState) (d : SrcDoc) (chunks : List Chunk) :
    (d.load = some chunks →
      (stepPdf bs ml hp st d).events
        = (if bs ≤ (st.pending ++ calculate_chunk_ids chunks).length
              ∨ (hp = true ∧ 0 < ml ∧ d.memExceeds = true)
          then st.events ++ [.flush (st.pending ++ calculate_chunk_ids chunks).length]
          else st.events))
    ∧ (d.load = some chunks →
      (stepOffice bs st d).events
        = (if bs ≤ (st.pending ++ calculate_chunk_ids chunks).length
          then st.events ++ [.flush (st.pending ++ calculate_chunk_ids chunks).length]
          else st.events))
    ∧ stepPdf bs 0 hp st d = stepOffice bs st d
    ∧ (process_documents_in_batches env bs ml).pending = []
    ∧ ((process_documents_in_batches env bs ml).events).countP isSave
        = (if (process_documents_in_batches env bs ml).db.isSome then 1 else 0)
    ∧ ((process_documents_in_batches env bs ml).db.isSome = true →
        ∃ pre, (process_documents_in_batches env bs ml).events
            = pre ++ [IngestEv.save (process_documents_in_batches env bs ml).total]
          ∧ pre.countP isSave = 0) := by
  obtain ⟨h1, h2, h3⟩ := run_discipline env bs ml
  refine ⟨?_, ?_, ?_, h1, h2, h3⟩
  · intro hload
    unfold stepPdf
    rw [hload]
    dsimp only
    by_cases hcond : bs ≤ (st.pending ++ calculate_chunk_ids chunks).length
        ∨ (hp = true ∧ 0 < ml ∧ d.memExceeds = true)
    all_goals simp only [List.length_append] at hcond
    · simp [hcond, flushPending]
    · simp [hcond]
  · intro hload
    unfold stepOffice
    rw [hload]
    dsimp only
    by_cases hcond : bs ≤ (st.pending ++ calculate_chunk_ids chunks).length
    all_goals simp only [List.length_append] at hcond
    · simp [hcond, flushPending]
    · simp [hcond]
  · unfold stepPdf stepOffice
    cases d.load <;> simp

/-- C5 witness: at `batchSize = 10`, `memoryLimit = 100`, with `psutil`
available, a one-chunk document whose processing pushed memory over the
limit triggers a flush when ingested as a PDF and no flush when ingested
as a DOCX/DOC. -/
theorem C5_batched_flush_policy_witness :
    (stepPdf 10 100 true ⟨none, [], 0, []⟩ ⟨some [⟨"t", "s", "0", ""⟩], true⟩).events
      = [IngestEv.flush 1]
    ∧ (stepOffice 10 ⟨none, [], 0, []⟩ ⟨some [⟨"t", "s", "0", ""⟩], true⟩).events = [] := by
  have h := C5_batched_flush_policy ⟨[], [], [], .absent, true, true, true⟩ 10 100 true
    ⟨none, [], 0, []⟩ ⟨some [⟨"t", "s", "0", ""⟩], true⟩ [⟨"t", "s", "0", ""⟩]
  constructor
  · rw [h.1 rfl]
    decide
  · rw [h.2.1 rfl]
    decide

/-- C8 (confirmed): a failing load of the existing on-disk index behaves
exactly like an absent index — the run continues and builds fresh (both in
batched mode and in the non-empty traditional path) — and a document whose
loader raises is skipped: folding the per-document step over a list with
the bad document gives the same state as folding over the list without
it, for the PDF step and for the DOCX/DOC step alike. -/
theorem C8_error_recovery (env : IngestEnv) (bs ml : Nat) (hps : Bool)
    (st : IngestState) (pre post : List SrcDoc) (bad : SrcDoc) :
    process_documents_in_batches { env with disk := .corrupt } bs ml
      = process_documents_in_batches { env with disk := .absent } bs ml
    ∧ (∀ cs : List Chunk, cs ≠ [] → add_to_faiss cs .corrupt = add_to_faiss cs .absent)
    ∧ (bad.load = none →
        (pre ++ bad :: post).foldl (stepPdf bs ml hps) st
          = (pre ++ post).foldl (stepPdf bs ml hps) st)
    ∧ (bad.load = none →
        (pre ++ bad :: post).foldl (stepOffice bs) st
          = (pre ++ post).foldl (stepOffice bs) st) := by
  refine ⟨?_, ?_, ?_, ?_⟩
  · cases env
    rfl
  · intro cs hcs
    have hne : cs.isEmpty = false := by
      cases cs with
      | nil => exact absurd rfl hcs
      | cons a l => rfl
    simp [add_to_faiss, hne]
  · intro hbad
    rw [List.foldl_append, List.foldl_append, List.foldl_cons]
    have hskip : stepPdf bs ml hps (pre.foldl (stepPdf bs ml hps) st) bad
        = pre.foldl (stepPdf bs ml hps) st := by
      unfold stepPdf
      rw [hbad]
    rw [hskip]
  · intro hbad
    rw [List.foldl_append, List.foldl_append, List.foldl_cons]
    have hskip : stepOffice bs (pre.foldl (stepOffice bs) st) bad
        = pre.foldl (stepOffice bs) st := by
      unfold stepOffice
      rw [hbad]
    rw [hskip]

/-- C8 witness: folding the PDF step over a good file followed by an
unloadable one equals folding over the good file alone, and the
traditional path treats a corrupt index like an absent one on a non-empty
chunk list. -/
theorem C8_error_recovery_witness :
    ([⟨some [⟨"t", "s", "0", ""⟩], false⟩, ⟨none, false⟩] : List SrcDoc).foldl
        (stepPdf 10 0 false) ⟨none, [], 0, []⟩
      = ([⟨some [⟨"t", "s", "0", ""⟩], false⟩] : List SrcDoc).foldl
        (stepPdf 10 0 false) ⟨none, [], 0, []⟩
    ∧ add_to_faiss [⟨"t", "s", "0", ""⟩] .corrupt
      = add_to_faiss [⟨"t", "s", "0", ""⟩] .absent := by
  have h := C8_error_recovery ⟨[], [], [], .absent, false, false, false⟩ 10 0 false
    ⟨none, [], 0, []⟩ [⟨some [⟨"t", "s", "0", ""⟩], false⟩] [] ⟨none, false⟩
  exact ⟨h.2.2.1 rfl, h.2.1 [⟨"t", "s", "0", ""⟩] (by decide)⟩

/-- C9 (confirmed): merging a batch into an existing index is plain
index-level union — the batch's entries are appended — so id occurrences
add up and a chunk whose id is already present in the existing index
yields at least two retrievable entries under that id; and id assignment
performs no deduplication either (it preserves the number of chunks). -/
theorem C9_merge_no_dedup (d : Db) (chunks : List Chunk) (c : Chunk)
    (hc : c ∈ chunks) (hdup : 0 < countId d c.id) :
    process_batch chunks (some d) = some (d ++ chunks)
    ∧ countId (d ++ chunks) c.id = countId d c.id + countId chunks c.id
    ∧ 2 ≤ countId (d ++ chunks) c.id
    ∧ ∀ cs : List Chunk, (calculate_chunk_ids cs).length = cs.length := by
  have hne : chunks.isEmpty = false := by
    cases chunks with
    | nil => cases hc
    | cons a l => rfl
  have happ : countId (d ++ chunks) c.id = countId d c.id + countId chunks c.id := by
    simp [countId, List.countP_append]
  have hcnt : 0 < countId chunks c.id := by
    rw [countId, List.countP_pos_iff]
    exact ⟨c, hc, by simp⟩
  refine ⟨by simp [process_batch, hne], happ, ?_,
    fun cs => calcIdsFrom_length none 0 cs⟩
  rw [happ]
  omega

/-- C9 witness: the spec's scenario — an index already holding
`docA.pdf:0:0` receives a batch whose chunk carries the same id with
different text; the merged index holds both entries. -/
theorem C9_merge_no_dedup_witness :
    process_batch [⟨"different text", "docA.pdf", "0", "docA.pdf:0:0"⟩]
        (some [⟨"text A", "docA.pdf", "0", "docA.pdf:0:0"⟩])
      = some ([⟨"text A", "docA.pdf", "0", "docA.pdf:0:0"⟩]
          ++ [⟨"different text", "docA.pdf", "0", "docA.pdf:0:0"⟩])
    ∧ 2 ≤ countId ([⟨"text A", "docA.pdf", "0", "docA.pdf:0:0"⟩]
          ++ [⟨"different text", "docA.pdf", "0", "docA.pdf:0:0"⟩]) "docA.pdf:0:0" := by
  have h := C9_merge_no_dedup [⟨"text A", "docA.pdf", "0", "docA.pdf:0:0"⟩]
    [⟨"different text", "docA.pdf", "0", "docA.pdf:0:0"⟩]
    ⟨"different text", "docA.pdf", "0", "docA.pdf:0:0"⟩ (by decide) (by decide)
  exact ⟨h.1, h.2.2.1⟩

/-- C10 (confirmed): when there is nothing to add — no source files at
all, an empty chunk list handed to `add_to_faiss`, or a batched run whose
handle is still None at the end — no save event is emitted and the run
leaves the persisted index untouched. -/
theorem C10_no_save_without_content (env : IngestEnv) (bs ml : Nat)
    (chunks : List Chunk) (disk : DiskIndex) :
    (env.pdfs = [] → env.docxs = [] → env.docs = [] →
      process_documents_in_batches env bs ml = ⟨none, [], 0, []⟩)
    ∧ (chunks = [] → add_to_faiss chunks disk = (disk, []))
    ∧ ((process_documents_in_batches env bs ml).db = none →
        ((process_documents_in_batches env bs ml).events).countP isSave = 0) := by
  refine ⟨?_, ?_, ?_⟩
  · intro h1 h2 h3
    simp [process_documents_in_batches, h1, h2, h3]
  · intro h
    simp [add_to_faiss, h]
  · intro hdb
    have h2 := (run_discipline env bs ml).2.1
    rw [hdb] at h2
    simpa using h2

/-- C10 witness: a run over an empty data directory emits nothing even
with a readable index on disk; `add_to_faiss []` leaves a present index
untouched; and a run whose only file is unreadable (no preexisting index)
ends with a None handle and zero save events. -/
theorem C10_no_save_without_content_witness :
    process_documents_in_batches
        ⟨[], [], [], .present [⟨"t", "s", "0", "s:0:0"⟩], true, true, true⟩ 10 0
      = ⟨none, [], 0, []⟩
    ∧ add_to_faiss [] (.present [⟨"t", "s", "0", "s:0:0"⟩])
      = (.present [⟨"t", "s", "0", "s:0:0"⟩], [])
    ∧ ((process_documents_in_batches
        ⟨[⟨none, false⟩], [], [], .absent, true, true, true⟩ 10 0).events).countP isSave
      = 0 := by
  have h1 := C10_no_save_without_content
    ⟨[], [], [], .present [⟨"t", "s", "0", "s:0:0"⟩], true, true, true⟩ 10 0
    [] (.present [⟨"t", "s", "0", "s:0:0"⟩])
  have h2 := C10_no_save_without_content
    ⟨[⟨none, false⟩], [], [], .absent, true, true, true⟩ 10 0 [] .absent
  exact ⟨h1.1 rfl rfl rfl, h1.2.1 rfl, h2.2.2 (by decide)⟩

/-! ### The reset/update policy resolver (`database.py:135-185`) -/

/-- Python's `choice.lower().strip()` at `database.py:178` (`Char.toLower`
lowercases the ASCII letters, which covers every recognized token). -/
def normalizeChoice (s : String) : String :=
  String.mk (pyStrip (s.data.map Char.toLower))

/-- `prompt_user_for_reset` (`database.py:166-185`), with the sequence of
user inputs made explicit: a recognized token decides, anything else
re-prompts with no other effect; `none` models an input stream exhausted
without a decision (the Python loop would still be waiting). -/
def prompt_user_for_reset : List String → Option Bool
  | [] => none
  | i :: rest =>
    let choice := normalizeChoice i
    if choice = "1" ∨ choice = "r" ∨ choice = "reset" then some true
    else if choice = "2" ∨ choice = "u" ∨ choice = "update" then some false
    else prompt_user_for_reset rest

/-- The ways `determine_reset_behavior` can leave `main`'s prologue:
RESET (True), UPDATE (False), the `exit(1)` on conflicting flags, or an
exhausted interactive input stream. -/
inductive ResetDecision
  | reset
  | update
  | fatalConfig
  | inputExhausted
deriving DecidableEq

/-- `determine_reset_behavior` (`database.py:135-163`): conflicting flags
exit with a configuration error, a single flag decides, otherwise the
interactive prompt decides. -/
def determine_reset_behavior (resetFlag noResetFlag : Bool) (inputs : List String) :
    ResetDecision :=
  if resetFlag && noResetFlag then .fatalConfig
  else if resetFlag then .reset
  else if noResetFlag then .update
  else
    match prompt_user_for_reset inputs with
    | some true => .reset
    | some false => .update
    | none => .inputExhausted

/-- Document and index side effects of `main` (`database.py:104-132`),
abstracted: clearing the index and the document-processing phase. -/
inductive MainEv
  | clearIndex
  | processDocs
deriving DecidableEq

/-- The prologue of `main`: `exit(1)` on conflicting flags (raised inside
`determine_reset_behavior`) stops the run before `clear_database` and
before any document or index I/O; otherwise the index is cleared exactly
when RESET was decided, and processing follows. -/
def mainEvents (resetFlag noResetFlag : Bool) (inputs : List String) : List MainEv :=
  match determine_reset_behavior resetFlag noResetFlag inputs with
  | .fatalConfig => []
  | .inputExhausted => []
  | .reset => [.clearIndex, .processDocs]
  | .update => [.processDocs]

/-- C6 counterexample: the claim says only the tokens `1`/`r`/`reset`
yield RESET and any other input re-prompts, but the code lowercases and
strips the raw input first: the input `"R"`, which is none of the six
tokens, decides RESET immediately instead of re-prompting. -/
theorem C6_counterexample :
    determine_reset_behavior false false ["R"] = ResetDecision.reset
    ∧ ¬ ("R" = "1" ∨ "R" = "r" ∨ "R" = "reset") := by
  exact ⟨by decide, by decide⟩

/-- C6 (amended): the resolver has exactly the claimed terminal outcomes —
both flags is a fatal configuration error with no document or index I/O,
a lone reset flag yields RESET, a lone no-reset flag yields UPDATE, and
with neither flag the interactive prompt decides, where an input whose
lowercased, stripped form is `1`/`r`/`reset` yields RESET, one whose
normalized form is `2`/`u`/`update` yields UPDATE, and any other input
re-prompts with no effect on the outcome. -/
theorem C6_reset_resolver (resetFlag noResetFlag : Bool) (inputs : List String)
    (i : String) (rest : List String) :
    (resetFlag = true → noResetFlag = true →
      determine_reset_behavior resetFlag noResetFlag inputs = .fatalConfig
      ∧ mainEvents resetFlag noResetFlag inputs = [])
    ∧ (resetFlag = true → noResetFlag = false →
      determine_reset_behavior resetFlag noResetFlag inputs = .reset)
    ∧ (resetFlag = false → noResetFlag = true →
      determine_reset_behavior resetFlag noResetFlag inputs = .update)
    ∧ (resetFlag = false → noResetFlag = false →
      prompt_user_for_reset inputs = some true →
      determine_reset_behavior resetFlag noResetFlag inputs = .reset)
    ∧ (resetFlag = false → noResetFlag = false →
      prompt_user_for_reset inputs = some false →
      determine_reset_behavior resetFlag noResetFlag inputs = .update)
    ∧ (normalizeChoice i = "1" ∨ normalizeChoice i = "r" ∨ normalizeChoice i = "reset" →
      prompt_user_for_reset (i :: rest) = some true)
    ∧ (normalizeChoice i = "2" ∨ normalizeChoice i = "u" ∨ normalizeChoice i = "update" →
      prompt_user_for_reset (i :: rest) = some false)
    ∧ (¬ (normalizeChoice i = "1" ∨ normalizeChoice i = "r" ∨ normalizeChoice i = "reset"
          ∨ normalizeChoice i = "2" ∨ normalizeChoice i = "u" ∨ normalizeChoice i = "update") →
      prompt_user_for_reset (i :: rest) = prompt_user_for_reset rest) := by
  refine ⟨?_, ?_, ?_, ?_, ?_, ?_, ?_, ?_⟩
  · intro h1 h2
    exact ⟨by simp [determine_reset_behavior, h1, h2],
      by simp [mainEvents, determine_reset_behavior, h1, h2]⟩
  · intro h1 h2
    simp [determine_reset_behavior, h1, h2]
  · intro h1 h2
    simp [determine_reset_behavior, h1, h2]
  · intro h1 h2 h3
    simp [determine_reset_behavior, h1, h2, h3]
  · intro h1 h2 h3
    simp [determine_reset_behavior, h1, h2, h3]
  · intro hc
    simp only [prompt_user_for_reset]
    rw [if_pos hc]
  · intro hc
    have hno : ¬ (normalizeChoice i = "1" ∨ normalizeChoice i = "r" ∨ normalizeChoice i = "reset") := by
      rcases hc with h | h | h <;> simp [h]
    simp only [prompt_user_for_reset]
    rw [if_neg hno, if_pos hc]
  · intro hc
    simp only [not_or] at hc
    obtain ⟨h1, h2, h3, h4, h5, h6⟩ := hc
    simp only [prompt_user_for_reset]
    rw [if_neg (by simp [h1, h2, h3]), if_neg (by simp [h4, h5, h6])]

/-- C6 witness: conflicting flags are fatal with no I/O events, the input
`" ReSeT "` (normalizing to `reset`) decides RESET, and an unrecognized
input merely defers to the rest of the input stream. -/
theorem C6_reset_resolver_witness :
    (determine_reset_behavior true true ["x"] = ResetDecision.fatalConfig
      ∧ mainEvents true true ["x"] = [])
    ∧ prompt_user_for_reset [" ReSeT "] = some true
    ∧ prompt_user_for_reset ["yes", "2"] = prompt_user_for_reset ["2"] := by
  have h1 := C6_reset_resolver true true ["x"] " ReSeT " []
  have h2 := C6_reset_resolver false false [] "yes" ["2"]
  exact ⟨h1.1 rfl rfl, h1.2.2.2.2.2.1 (by decide), h2.2.2.2.2.2.2.2 (by decide)⟩

end Inquiro
